import Mathlib

/-!
# Verification of the keep alert-ingestion core (`keep/api/routes/alerts.py`)

Shallow embedding of the ingestion-enrichment-fanout pipeline:

* the Compressed Batch Publisher loop of `pull_alerts_from_providers`
  (lines 156-190 of `alerts.py`),
* the enrichment-overlay endpoints `delete_alert` and `assign_alert`,
* the ingestion pipeline `handle_formatted_events` (persist / workflow /
  rules stages), modelled as a deterministic interpreter that records an
  ordered effect trace, with failure oracles standing for the exceptions
  the source catches,
* the Provider Poll Orchestrator `pull_alerts_from_providers` entry
  (sync result accumulation, pusher-absent guard, per-provider isolation,
  and the uncaught raise paths: provider enumeration and instantiation
  outside the per-provider `try`, and the bare `async-done` trigger).

Serialization + zlib compression + base64 encoding of a list of alerts is
abstracted by a caller-supplied `size : List α → Nat` giving the encoded
length of the whole candidate list; the payload a flush sends is represented
by the alert list it encodes (`none` standing for the empty string, which the
source's `previous_compressed_batch` holds before any batch was accepted).
-/

namespace Keep

set_option linter.unusedVariables false

/-! ## Compressed Batch Publisher (`alerts.py` lines 156-190)

State carried across the `for alert in alerts` loop.  The string variables
`previous_compressed_batch` / `new_compressed_batch` are tracked as the alert
lists they encode; the empty string is `none` (base64-of-zlib of a nonempty
JSON list is never the empty string, so the distinction is faithful). -/

structure PubState (α : Type) where
  batchSend : List α
  previousCompressedBatch : Option (List α)
  newCompressedBatch : Option (List α)
  numberOfAlertsInBatch : Nat
  /-- every `__send_compressed_alerts` call so far: payload and count. -/
  flushed : List (Option (List α) × Nat)
  deriving Repr, DecidableEq

/-- Initial state: `batch_send = []`, both strings empty, count 0. -/
def pubInit (α : Type) : PubState α :=
  { batchSend := []
    previousCompressedBatch := none
    newCompressedBatch := none
    numberOfAlertsInBatch := 0
    flushed := [] }

/-- One iteration of the loop body (lines 162-180): append the alert to
`batch_send`, re-encode the whole candidate, and either accept it
(`len <= 10240`) or flush `previous_compressed_batch` and reset the
candidate to the overflowing alert alone.  Note the source does NOT reset
`previous_compressed_batch` in the overflow branch. -/
def pubStep {α : Type} (size : List α → Nat) (s : PubState α) (a : α) :
    PubState α :=
  let bs := s.batchSend ++ [a]
  if size bs ≤ 10240 then
    { s with
      batchSend := bs
      newCompressedBatch := some bs
      previousCompressedBatch := some bs
      numberOfAlertsInBatch := s.numberOfAlertsInBatch + 1 }
  else
    { batchSend := [a]
      previousCompressedBatch := s.previousCompressedBatch
      newCompressedBatch := none
      numberOfAlertsInBatch := 1
      flushed := s.flushed ++
        [(s.previousCompressedBatch, s.numberOfAlertsInBatch)] }

/-- The trailing send (lines 184-190):
`if new_compressed_batch and len(new_compressed_batch) < 10240`. -/
def pubFinish {α : Type} (size : List α → Nat) (s : PubState α) : PubState α :=
  match s.newCompressedBatch with
  | some l =>
      if size l < 10240 then
        { s with flushed := s.flushed ++ [(some l, s.numberOfAlertsInBatch)] }
      else s
  | none => s

/-- Run the whole batch-publishing loop on an input sequence. -/
def runPub {α : Type} (size : List α → Nat) (alerts : List α) : PubState α :=
  pubFinish size (alerts.foldl (pubStep size) (pubInit α))

/-- Encoded length of a flushed payload; the empty string has length 0. -/
def payloadSize {α : Type} (size : List α → Nat) : Option (List α) → Nat
  | none => 0
  | some l => size l

/-- Concatenation, in flush order, of the alert lists the flushed messages
decode to (the empty-string payload decodes to no alerts). -/
def decodedConcat {α : Type} (s : PubState α) : List α :=
  (s.flushed.map (fun p => p.1.getD [])).flatten

/-- A run is "good" when no addition overflows while `new_compressed_batch`
is the empty string — i.e. the first addition fits, and no overflow happens
on the addition immediately following an overflow.  (When that is violated
the source flushes a stale or empty `previous_compressed_batch`.) -/
def pubGoodRun {α : Type} (size : List α → Nat) :
    PubState α → List α → Bool
  | _, [] => true
  | s, a :: rest =>
      (decide (size (s.batchSend ++ [a]) ≤ 10240)
        || s.newCompressedBatch.isSome)
      && pubGoodRun size (pubStep size s a) rest

/-- The loop ends with an accepted candidate whose encoding is strictly
below the ceiling (so the trailing send fires), or the input was empty. -/
def pubFinalOk {α : Type} (size : List α → Nat) (s : PubState α) : Bool :=
  match s.newCompressedBatch with
  | some l => decide (size l < 10240)
  | none => s.batchSend.isEmpty

/-! ## Python dict / list primitives

Python dicts are modelled as insertion-ordered association lists with unique
keys: `d[k] = v` updates in place when the key exists and appends otherwise;
`d.pop(k, None)` drops the entry; `k in d` is key membership.  Opaque string
values (timestamps, emails, field names) are tokenized as `Nat`. -/

/-- `d.get(k)`: first binding of `k`. -/
def dlookup {κ ν : Type} [DecidableEq κ] (k : κ) : List (κ × ν) → Option ν
  | [] => none
  | (k', v) :: rest => if k' = k then some v else dlookup k rest

/-- `d[k] = v`: update in place, else append (dict insertion order). -/
def dinsert {κ ν : Type} [DecidableEq κ] (k : κ) (v : ν) :
    List (κ × ν) → List (κ × ν)
  | [] => [(k, v)]
  | (k', v') :: rest =>
      if k' = k then (k, v) :: rest else (k', v') :: dinsert k v rest

/-- `d.pop(k, None)`: drop the binding of `k` when present. -/
def dpop {κ ν : Type} [DecidableEq κ] (k : κ) :
    List (κ × ν) → List (κ × ν)
  | [] => []
  | (k', v') :: rest => if k' = k then rest else (k', v') :: dpop k rest

/-- `k in d`. -/
def dcontains {κ ν : Type} [DecidableEq κ] (k : κ) (l : List (κ × ν)) : Bool :=
  l.any (fun p => decide (p.1 = k))

/-! ## Enrichment overlay endpoints (`delete_alert`, `assign_alert`)

The overlay's reserved keys, per fingerprint: `deleted` is the ordered list
of soft-deleted `lastReceived` timestamps, `assignees` maps `lastReceived`
to an assignee.  `enrich_alert_db` replaces exactly the keys it is given and
preserves the rest (spec section 4.2), so writing both keys back amounts to
replacing the whole record here.  An absent overlay row is the empty record
(`deleted = []`, `assignees = {}`), exactly what the endpoints start from.
The legacy `deleted: bool` coercion (line 303) is unrepresentable in the
typed model and therefore omitted. -/

structure Enrichment where
  deleted : List Nat
  assignees : List (Nat × Nat)
  deriving Repr, DecidableEq

/-- `delete_alert` (lines 296-324): restore removes the first occurrence of
`lastReceived` from `deleted` (`list.remove`); delete appends it
unconditionally; then the actor is recorded as assignee for that
`lastReceived` unless one is already recorded. -/
def deleteAlert (restore : Bool) (lastReceived userEmail : Nat)
    (e : Enrichment) : Enrichment :=
  let deleted :=
    if restore = true ∧ lastReceived ∈ e.deleted then
      e.deleted.erase lastReceived
    else if restore = false then e.deleted ++ [lastReceived]
    else e.deleted
  let assignees :=
    if dcontains lastReceived e.assignees then e.assignees
    else e.assignees ++ [(lastReceived, userEmail)]
  { deleted := deleted, assignees := assignees }

/-- `assign_alert` (lines 340-369): unassign pops the `lastReceived` key
(no-op when absent), assign binds it to the actor; only the `assignees`
key is written back, so `deleted` is preserved by the upsert. -/
def assignAlert (unassign : Bool) (lastReceived userEmail : Nat)
    (e : Enrichment) : Enrichment :=
  { deleted := e.deleted
    assignees :=
      if unassign then dpop lastReceived e.assignees
      else dinsert lastReceived userEmail e.assignees }

/-! ## Ingestion pipeline (`handle_formatted_events`, lines 410-537)

Alerts carry an open `event` field mapping plus the two fields the pipeline
mutates (`pushed`, `event_id`).  The pipeline is embedded as a deterministic
interpreter producing an ordered effect trace; the exceptions the source
catches are decided by failure oracles (`Bool`-valued, standing for whether
the corresponding call raises). -/

structure AlertDto where
  fingerprint : Nat
  event : List (Nat × Nat)
  pushed : Bool
  eventId : Option Nat
  deriving Repr, DecidableEq

/-- Merge an enrichment overlay onto an event mapping: each overlay field
overwrites the raw field of the same name (`alert_event_copy[k] = v`,
lines 445-450; the pull path's `setattr` loop, lines 125-135, has the same
effect on the alert's fields). -/
def applyOverlay (overlay : Option (List (Nat × Nat)))
    (event : List (Nat × Nat)) : List (Nat × Nat) :=
  match overlay with
  | none => event
  | some ov => ov.foldl (fun acc kv => dinsert kv.1 kv.2 acc) event

/-- Observable calls of `handle_formatted_events`, in program order. -/
inductive Effect where
  /-- `session.add(alert)` for the alert at input position `idx`. -/
  | persist (idx fp : Nat)
  /-- per-alert live-feed publish of the merged single-alert view. -/
  | publishSingle (idx fp : Nat) (view : List (Nat × Nat))
  /-- `session.commit()` at the end of Stage A. -/
  | commit
  /-- Stage B: `workflow_manager.insert_events(tenant, formatted_events)`. -/
  | workflowInsert (alerts : List AlertDto)
  /-- Stage C: `rules_engine.run_rules(formatted_events)`. -/
  | rulesRun (alerts : List AlertDto)
  /-- Stage C: `workflow_manager.insert_events(tenant, grouped_alerts)`. -/
  | workflowInsertGrouped (alerts : List AlertDto)
  /-- Stage C: live-feed publish of one grouped alert (no overlay merge). -/
  | publishGrouped (idx : Nat) (g : AlertDto)
  deriving Repr, DecidableEq

/-- Failure oracles and collaborator outputs for one pipeline invocation:
each `...Fail` field decides whether the corresponding source call raises
(the source catches the exception at the enclosing `try`). -/
structure Oracles where
  /-- `session.add` / enrichment fetch raises for input position `i`. -/
  persistFail : Nat → Bool
  /-- the per-alert `pusher_client.trigger` raises for position `i`. -/
  publishFail : Nat → Bool
  commitFail : Bool
  /-- the Stage-B workflow call raises. -/
  workflowFail : Bool
  /-- `rules_engine.run_rules` raises. -/
  rulesFail : Bool
  /-- grouped alerts `run_rules` returns when it does not raise. -/
  grouped : List AlertDto
  /-- the grouped-alert `insert_events` call raises. -/
  groupedInsertFail : Bool
  /-- the per-grouped-alert publish raises for grouped position `j`. -/
  groupedPublishFail : Nat → Bool
  /-- enrichment store: overlay mapping per fingerprint, absent rows `none`. -/
  overlay : Nat → Option (List (Nat × Nat))

/-- Stage A (lines 427-483): one `try` wraps the WHOLE loop and the commit,
so a persistence failure at position `i` aborts the rest of the loop; only
the per-alert publish has an inner per-iteration `try`.  Returns the
(mutated) in-memory alert list alongside the effect trace; a processed
alert gets `pushed := true` (set before the fallible persist) and
`event_id`; its `event` mapping is never mutated. -/
def stageA (o : Oracles) : List AlertDto → Nat → List AlertDto × List Effect
  | [], _ => ([], if o.commitFail then [] else [Effect.commit])
  | ev :: rest, i =>
      let ev1 : AlertDto := { ev with pushed := true }
      if o.persistFail i then (ev1 :: rest, [])
      else
        let ev2 : AlertDto := { ev1 with eventId := some i }
        let view := applyOverlay (o.overlay ev.fingerprint) ev2.event
        let pub :=
          if o.publishFail i then []
          else [Effect.publishSingle i ev.fingerprint view]
        let r := stageA o rest (i + 1)
        (ev2 :: r.1, Effect.persist i ev.fingerprint :: (pub ++ r.2))

/-- Stage C grouped publishes (lines 514-526): per-item `try`. -/
def groupedPublishes (o : Oracles) : Nat → List AlertDto → List Effect
  | _, [] => []
  | j, g :: rest =>
      (if o.groupedPublishFail j then [] else [Effect.publishGrouped j g])
        ++ groupedPublishes o (j + 1) rest

/-- Stage B (lines 484-501): a single `insert_events` call on the
in-memory list, under its own `try`. -/
def stageBTrace (o : Oracles) (alerts1 : List AlertDto) : List Effect :=
  if o.workflowFail then [] else [Effect.workflowInsert alerts1]

/-- Stage C (lines 503-537): `run_rules` on the in-memory list; when it
returns grouped alerts, insert them into the workflow manager and publish
each one, all under the stage-level `try` (publishes per-item). -/
def stageCTrace (o : Oracles) (alerts1 : List AlertDto) : List Effect :=
  if o.rulesFail then []
  else
    Effect.rulesRun alerts1 ::
      (if o.grouped.isEmpty then []
       else if o.groupedInsertFail then []
       else Effect.workflowInsertGrouped o.grouped ::
         groupedPublishes o 0 o.grouped)

/-- `handle_formatted_events`: Stage A, then Stage B, then Stage C, in
program order; Stages B and C receive the in-memory alert list Stage A
mutated, not the merged views published to the live feed. -/
def handleFormattedEvents (o : Oracles) (alerts : List AlertDto) :
    List Effect :=
  (stageA o alerts 0).2 ++ stageBTrace o (stageA o alerts 0).1 ++
    stageCTrace o (stageA o alerts 0).1

/-- Index of a `persist` effect. -/
def persistIdx : Effect → Option Nat
  | Effect.persist i _ => some i
  | _ => none

/-- Input positions persisted, in trace order. -/
def persistIdxs (t : List Effect) : List Nat := t.filterMap persistIdx

/-- Index of a single-alert publish effect. -/
def singleIdx : Effect → Option Nat
  | Effect.publishSingle i _ _ => some i
  | _ => none

/-- Input positions published to the live feed, in trace order. -/
def singleIdxs (t : List Effect) : List Nat := t.filterMap singleIdx

/-- Effects Stage A can emit. -/
def isStageA : Effect → Bool
  | Effect.persist _ _ => true
  | Effect.publishSingle _ _ _ => true
  | Effect.commit => true
  | _ => false

/-- Effects Stage B can emit. -/
def isStageB : Effect → Bool
  | Effect.workflowInsert _ => true
  | _ => false

/-- Effects Stage C can emit. -/
def isStageC : Effect → Bool
  | Effect.rulesRun _ => true
  | Effect.workflowInsertGrouped _ => true
  | Effect.publishGrouped _ _ => true
  | _ => false

/-- Position of the first Stage-A persistence failure among the next `n`
alerts starting at position `i` (`n` when none fails). -/
def firstPersistFail (o : Oracles) : Nat → Nat → Nat
  | _, 0 => 0
  | i, n + 1 =>
      if o.persistFail i then 0 else firstPersistFail o (i + 1) n + 1

/-! ## Provider Poll Orchestrator (`pull_alerts_from_providers`, 65-215)

One provider's turn inside the per-provider `try` (lines 89-210): the pull
itself, the enrichment fetch+merge, and (async path) the batch publishing
can each raise; the exception is caught at the provider level and the loop
moves on.  `pull = none` stands for `get_alerts()` raising.

NOT everything in the function is under a `try`: the provider-enumeration
calls (`get_all_providers` / `get_installed_providers`, lines 70-77), the
per-provider `ProvidersFactory.get_provider` call (lines 83-88, before the
`try` that starts at line 89) and the terminal `async-done` trigger
(line 212) are uncaught — an exception there propagates out of the
function.  They are modelled by `enumerateFail`, `instantiateFail` and
`asyncDoneFail` below. -/

structure ProviderRun where
  /-- `ProvidersFactory.get_provider` (lines 83-88) raises for this
  provider: OUTSIDE the per-provider `try`, so it propagates out. -/
  instantiateFail : Bool
  pull : Option (List AlertDto)
  /-- `get_enrichments_from_db` raises for this provider. -/
  enrichFail : Bool
  /-- the pusher raises on this provider's n-th batch flush, aborting the
  provider after the first `n` flushes were already sent. -/
  publishFailAt : Option Nat

/-- Pull-path enrichment merge (lines 125-135): `setattr` of every overlay
field onto the matching alert. -/
def enrichAlert (overlay : Nat → Option (List (Nat × Nat))) (a : AlertDto) :
    AlertDto :=
  { a with event := applyOverlay (overlay a.fingerprint) a.event }

/-- Sync-mode contribution of one provider: a failed pull, an empty pull
(`if alerts:` guard) or a failed enrichment contributes nothing;
otherwise the enriched alerts are extended onto `sync_alerts`. -/
def processProviderSync (overlay : Nat → Option (List (Nat × Nat)))
    (p : ProviderRun) : List AlertDto :=
  match p.pull with
  | none => []
  | some alerts =>
      if alerts.isEmpty then []
      else if p.enrichFail then []
      else alerts.map (enrichAlert overlay)

/-- `sync_alerts` after the sequential provider loop. -/
def runProvidersSync (overlay : Nat → Option (List (Nat × Nat)))
    (ps : List ProviderRun) : List AlertDto :=
  (ps.map (processProviderSync overlay)).flatten

/-- Observable pusher calls of an async sweep. -/
inductive PullEffect where
  | flush (payload : Option (List AlertDto)) (count : Nat)
  /-- the terminal `async-done` signal (line 212). -/
  | asyncDone
  deriving Repr, DecidableEq

/-- Async-mode effects of one provider: the batch-publisher flushes over the
enriched alerts, truncated at the first failing pusher call. -/
def processProviderAsync (size : List AlertDto → Nat)
    (overlay : Nat → Option (List (Nat × Nat))) (p : ProviderRun) :
    List PullEffect :=
  match p.pull with
  | none => []
  | some alerts =>
      if alerts.isEmpty then []
      else if p.enrichFail then []
      else
        let fl := (runPub size (alerts.map (enrichAlert overlay))).flushed
        ((match p.publishFailAt with
          | none => fl
          | some k => fl.take k).map
            fun pr : Option (List AlertDto) × Nat => PullEffect.flush pr.1 pr.2)

/-- The error classes that can propagate out of
`pull_alerts_from_providers`:
the guard `HTTPException(500, ...)` of lines 68-69, and the uncaught raise
paths — provider enumeration (lines 70-77), per-provider instantiation
(lines 83-88, outside the per-provider `try`) and the terminal
`async-done` trigger (line 212, no `try`).  Errors raised after pusher
calls already went out carry the effects emitted up to that point. -/
inductive PullError where
  | pusherDisabled
  | providerEnumeration
  | providerInstantiation (emitted : List PullEffect)
  | asyncDonePublish (emitted : List PullEffect)
  deriving Repr, DecidableEq

/-- The sequential provider loop (lines 82-210), accumulating
`sync_alerts` (sync mode) or the emitted pusher effects (async mode).
The `get_provider` call precedes the `try`, so `instantiateFail` aborts
the whole loop with an error (carrying the effects already emitted);
everything after it is inside the per-provider `try` and is absorbed by
the totality of `processProviderSync` / `processProviderAsync`. -/
def runProviders (size : List AlertDto → Nat)
    (overlay : Nat → Option (List (Nat × Nat))) (sync : Bool) :
    List ProviderRun → List AlertDto → List PullEffect →
      Except PullError (List AlertDto × List PullEffect)
  | [], acc, eff => Except.ok (acc, eff)
  | p :: rest, acc, eff =>
      if p.instantiateFail then
        Except.error (PullError.providerInstantiation eff)
      else if sync then
        runProviders size overlay sync rest
          (acc ++ processProviderSync overlay p) eff
      else
        runProviders size overlay sync rest acc
          (eff ++ processProviderAsync size overlay p)

/-- `pull_alerts_from_providers` (lines 65-215): guard (lines 68-69), then
provider enumeration (lines 70-77, uncaught), then the sequential provider
loop; sync mode returns the accumulated list and publishes nothing, async
mode publishes per provider and then fires the uncaught `async-done`
trigger (line 212). -/
def pullAlertsFromProviders (size : List AlertDto → Nat)
    (overlay : Nat → Option (List (Nat × Nat)))
    (pusherPresent sync : Bool) (enumerateFail : Bool)
    (providers : List ProviderRun) (asyncDoneFail : Bool) :
    Except PullError (Option (List AlertDto) × List PullEffect) :=
  if pusherPresent = false ∧ sync = false then
    Except.error PullError.pusherDisabled
  else if enumerateFail then Except.error PullError.providerEnumeration
  else
    match runProviders size overlay sync providers [] [] with
    | Except.error e => Except.error e
    | Except.ok (acc, eff) =>
        if sync then Except.ok (some acc, eff)
        else if asyncDoneFail then
          Except.error (PullError.asyncDonePublish eff)
        else Except.ok (none, eff ++ [PullEffect.asyncDone])

/-! ## Concrete instances used by counterexamples and witnesses -/

/-- Encoded-size function refuting C1: all singletons fit (6000 bytes), the
candidate `[2, 3]` encodes to exactly 10240 bytes, and every other
multi-alert candidate overflows. -/
def sizeCx (l : List Nat) : Nat :=
  if l = [2, 3] then 10240 else if l.length ≤ 1 then 6000 else 11000

/-- Encoded-size function for the C1 witness: one overflow, then a final
batch strictly under the ceiling. -/
def sizeW (l : List Nat) : Nat :=
  if l = [0, 1] then 12000 else 3000 * l.length

/-- Encoded-size function making every payload oversized (C7). -/
def sizeBig (l : List Nat) : Nat := 20000

/-- All-success oracles; the overlay maps fingerprint 0 to `{field 0 = 1}`
while the raw event of the test alert sets field 0 to 2. -/
def oracleCx2 : Oracles :=
  { persistFail := fun _ => false
    publishFail := fun _ => false
    commitFail := false
    workflowFail := false
    rulesFail := false
    grouped := []
    groupedInsertFail := false
    groupedPublishFail := fun _ => false
    overlay := fun fp => if fp = 0 then some [(0, 1)] else none }

/-- Oracles where persistence raises for the first alert only. -/
def oracleCx4 : Oracles :=
  { persistFail := fun i => decide (i = 0)
    publishFail := fun _ => false
    commitFail := false
    workflowFail := false
    rulesFail := false
    grouped := []
    groupedInsertFail := false
    groupedPublishFail := fun _ => false
    overlay := fun _ => none }

/-- All-success oracles except that the rules engine raises. -/
def oracleRulesFail : Oracles :=
  { persistFail := fun _ => false
    publishFail := fun _ => false
    commitFail := false
    workflowFail := false
    rulesFail := true
    grouped := []
    groupedInsertFail := false
    groupedPublishFail := fun _ => false
    overlay := fun _ => none }

/-! # Theorems

## Batch publisher lemmas -/

lemma decodedConcat_mk {α : Type} (s : PubState α) :
    decodedConcat s = (s.flushed.map (fun p => p.1.getD [])).flatten := rfl

lemma pubFold_le {α : Type} (size : List α → Nat) :
    ∀ (alerts : List α) (s : PubState α),
      (∀ p ∈ s.flushed, payloadSize size p.1 ≤ 10240) →
      payloadSize size s.previousCompressedBatch ≤ 10240 →
      (∀ p ∈ (alerts.foldl (pubStep size) s).flushed,
          payloadSize size p.1 ≤ 10240) ∧
        payloadSize size
          (alerts.foldl (pubStep size) s).previousCompressedBatch ≤ 10240 := by
  intro alerts
  induction alerts with
  | nil => intro s hf hp; exact ⟨hf, hp⟩
  | cons a rest ih =>
      intro s hf hp
      rw [List.foldl_cons]
      by_cases h : size (s.batchSend ++ [a]) ≤ 10240
      · apply ih
        · simp only [pubStep, if_pos h]; exact hf
        · simp [pubStep, h, payloadSize]
      · apply ih
        · intro p hmem
          simp only [pubStep, if_neg h] at hmem
          simp only [List.mem_append, List.mem_singleton] at hmem
          rcases hmem with hmem | hmem
          · exact hf p hmem
          · subst hmem; exact hp
        · simp only [pubStep, if_neg h]; exact hp

lemma runPub_flushed_le {α : Type} (size : List α → Nat) (alerts : List α) :
    ∀ p ∈ (runPub size alerts).flushed, payloadSize size p.1 ≤ 10240 := by
  have h := pubFold_le size alerts (pubInit α)
    (by simp [pubInit]) (by simp [pubInit, payloadSize])
  intro p hp
  unfold runPub pubFinish at hp
  split at hp
  · next l heq =>
      split at hp
      · next hlt =>
          simp only [List.mem_append, List.mem_singleton] at hp
          rcases hp with hp | hp
          · exact h.1 p hp
          · subst hp; simpa [payloadSize] using Nat.le_of_lt hlt
      · exact h.1 p hp
  · exact h.1 p hp

lemma pubFold_good {α : Type} (size : List α → Nat) :
    ∀ (alerts : List α) (s : PubState α),
      pubGoodRun size s alerts = true →
      (∀ l, s.newCompressedBatch = some l →
        l = s.batchSend ∧ s.previousCompressedBatch = some s.batchSend) →
      ((∀ l,
          (alerts.foldl (pubStep size) s).newCompressedBatch = some l →
          l = (alerts.foldl (pubStep size) s).batchSend ∧
            (alerts.foldl (pubStep size) s).previousCompressedBatch =
              some (alerts.foldl (pubStep size) s).batchSend) ∧
        decodedConcat (alerts.foldl (pubStep size) s) ++
            (alerts.foldl (pubStep size) s).batchSend =
          decodedConcat s ++ s.batchSend ++ alerts) := by
  intro alerts
  induction alerts with
  | nil => intro s _ hsync; exact ⟨hsync, by simp⟩
  | cons a rest ih =>
      intro s hgood hsync
      rw [pubGoodRun] at hgood
      simp only [Bool.and_eq_true, Bool.or_eq_true, decide_eq_true_eq] at hgood
      obtain ⟨h1, h2⟩ := hgood
      rw [List.foldl_cons]
      by_cases h : size (s.batchSend ++ [a]) ≤ 10240
      · have hsync' : ∀ l, (pubStep size s a).newCompressedBatch = some l →
            l = (pubStep size s a).batchSend ∧
              (pubStep size s a).previousCompressedBatch =
                some (pubStep size s a).batchSend := by
          intro l hl
          simp only [pubStep, if_pos h] at hl ⊢
          exact ⟨(Option.some_injective _ hl).symm, trivial⟩
        obtain ⟨hA, hB⟩ := ih (pubStep size s a) h2 hsync'
        refine ⟨hA, ?_⟩
        rw [hB]
        simp [pubStep, h, decodedConcat]
      · have hs : s.newCompressedBatch.isSome = true := by
          rcases h1 with h1 | h1
          · exact absurd h1 h
          · exact h1
        obtain ⟨l, hl⟩ := Option.isSome_iff_exists.mp hs
        obtain ⟨hl1, hl2⟩ := hsync l hl
        have hsync' : ∀ l', (pubStep size s a).newCompressedBatch = some l' →
            l' = (pubStep size s a).batchSend ∧
              (pubStep size s a).previousCompressedBatch =
                some (pubStep size s a).batchSend := by
          intro l' hl'
          simp [pubStep, if_neg h] at hl'
        obtain ⟨hA, hB⟩ := ih (pubStep size s a) h2 hsync'
        refine ⟨hA, ?_⟩
        rw [hB]
        simp [pubStep, h, decodedConcat, hl2]

/-- **C1** (amended).  Every flushed message's encoded length is at most
10,240 bytes.  Reconstruction holds when the run is "good": no addition
overflows while `new_compressed_batch` is the empty string (first addition
fits; no overflow right after an overflow — the source does not refresh
`previous_compressed_batch` on overflow, so a second consecutive overflow
re-flushes a stale payload), and the loop ends with an accepted candidate
encoding strictly below 10,240 bytes (the trailing send requires `< 10240`,
so a final candidate of exactly 10,240 bytes is silently dropped).  Under
those hypotheses the trailing candidate is flushed and concatenating the
decoded alert lists of all flushed messages in flush order reconstructs the
input exactly. -/
theorem batch_publisher_ceiling_and_reconstruction {α : Type}
    (size : List α → Nat) (alerts : List α)
    (hgood : pubGoodRun size (pubInit α) alerts = true)
    (hfin : pubFinalOk size
      (alerts.foldl (pubStep size) (pubInit α)) = true) :
    (∀ p ∈ (runPub size alerts).flushed, payloadSize size p.1 ≤ 10240) ∧
      decodedConcat (runPub size alerts) = alerts := by
  refine ⟨runPub_flushed_le size alerts, ?_⟩
  obtain ⟨hsync, hacc⟩ := pubFold_good size alerts (pubInit α) hgood
    (by intro l hl; simp [pubInit] at hl)
  rw [show decodedConcat (pubInit α) = [] from rfl,
    show (pubInit α).batchSend = [] from rfl, List.append_nil,
    List.nil_append] at hacc
  unfold pubFinalOk at hfin
  unfold runPub pubFinish
  split at hfin
  · next l heq =>
      obtain ⟨hl1, hl2⟩ := hsync l heq
      rw [if_pos (of_decide_eq_true hfin)]
      have hd : decodedConcat
          { alerts.foldl (pubStep size) (pubInit α) with
            flushed := (alerts.foldl (pubStep size) (pubInit α)).flushed ++
              [(some l,
                (alerts.foldl (pubStep size)
                  (pubInit α)).numberOfAlertsInBatch)] } =
          decodedConcat (alerts.foldl (pubStep size) (pubInit α)) ++ l := by
        simp [decodedConcat_mk]
      rw [hd, hl1]
      exact hacc
  · next heq =>
      have hb : (alerts.foldl (pubStep size) (pubInit α)).batchSend = [] :=
        List.isEmpty_iff.mp hfin
      rw [hb, List.append_nil] at hacc
      exact hacc

/-- **C1** counterexample to the claim as stated.  With `sizeCx`, every
singleton fits within the ceiling (so the oversized-singleton exclusion
does not apply), yet feeding `[0, 1, 2, 3]` to the publisher flushes the
stale payload `[0]` twice — duplicating alert 0 and dropping 1, 2 and 3 —
and the final candidate `[2, 3]`, though non-empty and exactly at the
ceiling (within it), is never flushed. -/
theorem batch_publisher_claim_counterexample :
    (∀ a ∈ [0, 1, 2, 3], sizeCx [a] ≤ 10240) ∧
      sizeCx [2, 3] ≤ 10240 ∧
      (runPub sizeCx [0, 1, 2, 3]).flushed =
        [(some [0], 1), (some [0], 1)] ∧
      decodedConcat (runPub sizeCx [0, 1, 2, 3]) ≠ [0, 1, 2, 3] := by
  decide

/-- Witness for C1: a run with one overflow and a strictly-small final
batch satisfies both hypotheses and reconstructs its input. -/
theorem batch_publisher_ceiling_and_reconstruction_witness :
    pubGoodRun sizeW (pubInit Nat) [0, 1, 2] = true ∧
      pubFinalOk sizeW ([0, 1, 2].foldl (pubStep sizeW) (pubInit Nat)) =
        true ∧
      ((∀ p ∈ (runPub sizeW [0, 1, 2]).flushed,
          payloadSize sizeW p.1 ≤ 10240) ∧
        decodedConcat (runPub sizeW [0, 1, 2]) = [0, 1, 2]) :=
  ⟨by decide, by decide,
    batch_publisher_ceiling_and_reconstruction sizeW [0, 1, 2]
      (by decide) (by decide)⟩

/-- **C7** (amended).  For a single alert whose own encoding exceeds the
ceiling, the loop's overflow branch does fire once — publishing the empty
`previous_compressed_batch` (the empty string, zero alerts) — and the
trailing send never fires; the alert itself is never flushed to the sink:
the decoded content of everything flushed is empty. -/
theorem oversized_singleton_never_flushed {α : Type}
    (size : List α → Nat) (a : α) (h : 10240 < size [a]) :
    (runPub size [a]).flushed = [(none, 0)] ∧
      decodedConcat (runPub size [a]) = [] := by
  have h' : ¬ size [a] ≤ 10240 := not_le.mpr h
  constructor <;>
    simp [runPub, pubStep, pubFinish, pubInit, decodedConcat_mk, h']

/-- **C7** counterexample to the claim as stated: with every payload
oversized, the single-alert input `[0]` does make the flush fire (the sink
receives one message, the empty previous payload), so "the flush condition
never fires" is false — although the alert itself is never flushed. -/
theorem oversized_singleton_claim_counterexample :
    10240 < sizeBig [0] ∧ (runPub sizeBig [0]).flushed ≠ [] := by
  decide

/-- Witness for C7 at the concrete oversized singleton. -/
theorem oversized_singleton_never_flushed_witness :
    10240 < sizeBig [0] ∧
      ((runPub sizeBig [0]).flushed = [(none, 0)] ∧
        decodedConcat (runPub sizeBig [0]) = []) :=
  ⟨by decide, oversized_singleton_never_flushed sizeBig 0 (by decide)⟩

/-! ## Dictionary and enrichment lemmas -/

lemma dinsert_idem {κ ν : Type} [DecidableEq κ] (k : κ) (v : ν)
    (l : List (κ × ν)) : dinsert k v (dinsert k v l) = dinsert k v l := by
  induction l with
  | nil => simp [dinsert]
  | cons p rest ih =>
      obtain ⟨k', v'⟩ := p
      by_cases h : k' = k
      · simp [dinsert, h]
      · simp [dinsert, h, ih]

lemma dpop_of_not_contains {κ ν : Type} [DecidableEq κ] (k : κ)
    (l : List (κ × ν)) (h : dcontains k l = false) : dpop k l = l := by
  induction l with
  | nil => rfl
  | cons p rest ih =>
      obtain ⟨k', v'⟩ := p
      simp only [dcontains, List.any_cons, Bool.or_eq_false_iff,
        decide_eq_false_iff_not] at h
      rw [dpop, if_neg h.1, ih h.2]

lemma dcontains_append_self {κ ν : Type} [DecidableEq κ] (k : κ) (u : ν)
    (l : List (κ × ν)) : dcontains k (l ++ [(k, u)]) = true := by
  simp [dcontains]

lemma dlookup_append_of_not_contains {κ ν : Type} [DecidableEq κ] (k : κ)
    (u : ν) (l : List (κ × ν)) (h : dcontains k l = false) :
    dlookup k (l ++ [(k, u)]) = some u := by
  induction l with
  | nil => simp [dlookup]
  | cons p rest ih =>
      obtain ⟨k', v'⟩ := p
      simp only [dcontains, List.any_cons, Bool.or_eq_false_iff,
        decide_eq_false_iff_not] at h
      rw [List.cons_append, dlookup, if_neg h.1, ih h.2]

lemma erase_append_singleton_self (l : List Nat) (v : Nat) (h : v ∉ l) :
    (l ++ [v]).erase v = l := by
  rw [List.erase_append_right _ (by simpa using h)]
  simp

/-- **C8**.  From an overlay whose `deleted` sequence does not yet hold the
value (the duplicate-delete case is claim C10's subject), deleting a
`lastReceived` value and then restoring it yields an overlay whose
`deleted` sequence no longer contains the value — indeed equal to the one
before the delete — while the assignee entry recorded at delete time
persists: restore leaves `assignees` exactly as the delete left it, and if
the value was unassigned before the delete it is now assigned to the
deleting actor. -/
theorem soft_delete_restore_round_trip (e : Enrichment) (v u u' : Nat)
    (h : v ∉ e.deleted) :
    v ∉ (deleteAlert true v u' (deleteAlert false v u e)).deleted ∧
    (deleteAlert true v u' (deleteAlert false v u e)).deleted = e.deleted ∧
    (deleteAlert true v u' (deleteAlert false v u e)).assignees =
      (deleteAlert false v u e).assignees ∧
    (dcontains v e.assignees = false →
      dlookup v (deleteAlert true v u' (deleteAlert false v u e)).assignees =
        some u) := by
  have hd1 : (deleteAlert false v u e).deleted = e.deleted ++ [v] := by
    simp [deleteAlert]
  have ha1 : (deleteAlert false v u e).assignees =
      if dcontains v e.assignees then e.assignees
      else e.assignees ++ [(v, u)] := by
    simp [deleteAlert]
  have hmem : v ∈ (deleteAlert false v u e).deleted := by
    rw [hd1]; simp
  have hrestore : ∀ e' : Enrichment, v ∈ e'.deleted →
      (deleteAlert true v u' e').deleted = e'.deleted.erase v := by
    intro e' he'; simp [deleteAlert, he']
  have hd2 : (deleteAlert true v u' (deleteAlert false v u e)).deleted =
      e.deleted := by
    rw [hrestore _ hmem, hd1, erase_append_singleton_self e.deleted v h]
  have hca1 : dcontains v (deleteAlert false v u e).assignees = true := by
    rw [ha1]
    by_cases hc : dcontains v e.assignees = true
    · simp [hc]
    · simp [hc, dcontains_append_self]
  have hassign : ∀ e' : Enrichment, dcontains v e'.assignees = true →
      (deleteAlert true v u' e').assignees = e'.assignees := by
    intro e' he'; simp [deleteAlert, he']
  have ha2 : (deleteAlert true v u' (deleteAlert false v u e)).assignees =
      (deleteAlert false v u e).assignees := hassign _ hca1
  refine ⟨by rw [hd2]; exact h, hd2, ha2, ?_⟩
  intro hc
  rw [ha2, ha1, if_neg (by simp [hc])]
  exact dlookup_append_of_not_contains v u e.assignees hc

/-- Witness for C8: fresh overlay, delete then restore `lastReceived = 1`
with actors 5 and 7. -/
theorem soft_delete_restore_round_trip_witness :
    (1 : Nat) ∉ (Enrichment.mk [] []).deleted ∧
    ((1 : Nat) ∉
        (deleteAlert true 1 7 (deleteAlert false 1 5
          (Enrichment.mk [] []))).deleted ∧
      (deleteAlert true 1 7 (deleteAlert false 1 5
          (Enrichment.mk [] []))).deleted = (Enrichment.mk [] []).deleted ∧
      (deleteAlert true 1 7 (deleteAlert false 1 5
          (Enrichment.mk [] []))).assignees =
        (deleteAlert false 1 5 (Enrichment.mk [] [])).assignees ∧
      (dcontains 1 (Enrichment.mk [] []).assignees = false →
        dlookup 1 (deleteAlert true 1 7 (deleteAlert false 1 5
          (Enrichment.mk [] []))).assignees = some 5)) :=
  ⟨by decide,
    soft_delete_restore_round_trip (Enrichment.mk [] []) 1 5 7 (by decide)⟩

/-- **C9**.  Assigning the same `lastReceived` to the same user twice
yields the same overlay as assigning once, and unassigning a
`lastReceived` that is not currently assigned leaves the overlay unchanged
(the endpoint is total: it answers ok, never an error). -/
theorem assignment_idempotence (e : Enrichment) (v u : Nat)
    (h : dcontains v e.assignees = false) :
    assignAlert false v u (assignAlert false v u e) =
      assignAlert false v u e ∧
    assignAlert true v u e = e := by
  constructor
  · simp [assignAlert, dinsert_idem]
  · simp [assignAlert, dpop_of_not_contains v e.assignees h]

/-- Witness for C9: overlay assigning `lastReceived = 2` to user 9; the
value 1 is unassigned there. -/
theorem assignment_idempotence_witness :
    dcontains 1 (Enrichment.mk [] [(2, 9)]).assignees = false ∧
    (assignAlert false 1 5 (assignAlert false 1 5
        (Enrichment.mk [] [(2, 9)])) =
      assignAlert false 1 5 (Enrichment.mk [] [(2, 9)]) ∧
      assignAlert true 1 5 (Enrichment.mk [] [(2, 9)]) =
        Enrichment.mk [] [(2, 9)]) :=
  ⟨by decide, assignment_idempotence (Enrichment.mk [] [(2, 9)]) 1 5
    (by decide)⟩

/-- Auxiliary for C10: each delete call appends one more occurrence. -/
lemma deleteAlert_iterate_count (v u : Nat) :
    ∀ (n : Nat) (e : Enrichment),
      (((fun x => deleteAlert false v u x)^[n]) e).deleted.count v =
        e.deleted.count v + n := by
  intro n
  induction n with
  | zero => intro e; simp
  | succ m ih =>
      intro e
      rw [Function.iterate_succ_apply]
      rw [ih (deleteAlert false v u e)]
      have : (deleteAlert false v u e).deleted = e.deleted ++ [v] := by
        simp [deleteAlert]
      rw [this]
      simp
      omega

/-- **C10**.  Soft-delete is not idempotent: delete always appends the
`lastReceived` value to the `deleted` sequence (even when already
present), so `n` delete calls leave `n` more occurrences, and one restore
call removes exactly one occurrence. -/
theorem soft_delete_duplicates (e : Enrichment) (v u : Nat) (n : Nat)
    (h : v ∈ e.deleted) :
    (deleteAlert false v u e).deleted = e.deleted ++ [v] ∧
    (((fun x => deleteAlert false v u x)^[n]) e).deleted.count v =
      e.deleted.count v + n ∧
    ((deleteAlert true v u e).deleted).count v = e.deleted.count v - 1 := by
  refine ⟨by simp [deleteAlert], deleteAlert_iterate_count v u n e, ?_⟩
  simp [deleteAlert, h, List.count_erase_self]

/-- Witness for C10: `deleted = [3]` already holds the value 3; two more
deletes yield three occurrences, restore drops one. -/
theorem soft_delete_duplicates_witness :
    (3 : Nat) ∈ (Enrichment.mk [3] []).deleted ∧
    ((deleteAlert false 3 5 (Enrichment.mk [3] [])).deleted =
        (Enrichment.mk [3] []).deleted ++ [3] ∧
      (((fun x => deleteAlert false 3 5 x)^[2])
          (Enrichment.mk [3] [])).deleted.count 3 =
        (Enrichment.mk [3] []).deleted.count 3 + 2 ∧
      ((deleteAlert true 3 5 (Enrichment.mk [3] [])).deleted).count 3 =
        (Enrichment.mk [3] []).deleted.count 3 - 1) :=
  ⟨by decide, soft_delete_duplicates (Enrichment.mk [3] []) 3 5 2
    (by decide)⟩

/-! ## Ingestion pipeline lemmas -/

lemma stageA_fst_length (o : Oracles) :
    ∀ (alerts : List AlertDto) (i : Nat),
      (stageA o alerts i).1.length = alerts.length := by
  intro alerts
  induction alerts with
  | nil => intro i; rfl
  | cons ev rest ih =>
      intro i
      by_cases h : o.persistFail i = true
      · simp [stageA, h]
      · simp [stageA, h, ih]

lemma stageA_fst_event (o : Oracles) :
    ∀ (alerts : List AlertDto) (i : Nat),
      (stageA o alerts i).1.map AlertDto.event =
        alerts.map AlertDto.event := by
  intro alerts
  induction alerts with
  | nil => intro i; rfl
  | cons ev rest ih =>
      intro i
      by_cases h : o.persistFail i = true
      · simp [stageA, h]
      · simp [stageA, h, ih]

lemma stageA_trace_isStageA (o : Oracles) :
    ∀ (alerts : List AlertDto) (i : Nat),
      ∀ e ∈ (stageA o alerts i).2, isStageA e = true := by
  intro alerts
  induction alerts with
  | nil =>
      intro i e he
      by_cases h : o.commitFail = true
      · simp [stageA, h] at he
      · simp [stageA, h] at he
        subst he; rfl
  | cons ev rest ih =>
      intro i e he
      by_cases hp : o.persistFail i = true
      · simp [stageA, hp] at he
      · simp only [stageA, if_neg hp] at he
        rcases List.mem_cons.mp he with he | he
        · subst he; rfl
        · rcases List.mem_append.mp he with he | he
          · by_cases hq : o.publishFail i = true
            · simp [hq] at he
            · simp [hq] at he
              subst he; rfl
          · exact ih (i + 1) e he

lemma stageA_persistIdxs (o : Oracles) :
    ∀ (alerts : List AlertDto) (i : Nat),
      persistIdxs (stageA o alerts i).2 =
        List.range' i (firstPersistFail o i alerts.length) := by
  intro alerts
  induction alerts with
  | nil =>
      intro i
      by_cases h : o.commitFail = true <;>
        simp [stageA, h, persistIdxs, persistIdx, firstPersistFail]
  | cons ev rest ih =>
      intro i
      by_cases hp : o.persistFail i = true
      · simp [stageA, hp, persistIdxs, firstPersistFail]
      · simp only [stageA, if_neg hp, List.length_cons, firstPersistFail]
        rw [List.range'_succ]
        by_cases hq : o.publishFail i = true <;>
          simp [persistIdxs, persistIdx, hq] <;> exact ih (i + 1)

lemma stageA_singleIdxs_sublist (o : Oracles) :
    ∀ (alerts : List AlertDto) (i : Nat),
      List.Sublist (singleIdxs (stageA o alerts i).2)
        (persistIdxs (stageA o alerts i).2) := by
  intro alerts
  induction alerts with
  | nil =>
      intro i
      by_cases h : o.commitFail = true <;>
        simp [stageA, h, persistIdxs, singleIdxs, persistIdx, singleIdx]
  | cons ev rest ih =>
      intro i
      by_cases hp : o.persistFail i = true
      · simp [stageA, hp, persistIdxs, singleIdxs]
      · simp only [stageA, if_neg hp]
        by_cases hq : o.publishFail i = true
        · simp only [if_pos hq, persistIdxs, singleIdxs, List.filterMap_cons,
            List.filterMap_append, List.filterMap_nil, persistIdx, singleIdx,
            List.nil_append]
          exact (ih (i + 1)).cons i
        · simp only [if_neg hq, persistIdxs, singleIdxs, List.filterMap_cons,
            List.filterMap_append, List.filterMap_nil, persistIdx, singleIdx,
            List.nil_append, List.singleton_append]
          exact (ih (i + 1)).cons₂ i

lemma stageA_publishSingle_view (o : Oracles) :
    ∀ (alerts : List AlertDto) (i : Nat) {j fp : Nat}
      {view : List (Nat × Nat)},
      Effect.publishSingle j fp view ∈ (stageA o alerts i).2 →
      ∃ a ∈ alerts, fp = a.fingerprint ∧
        view = applyOverlay (o.overlay a.fingerprint) a.event := by
  intro alerts
  induction alerts with
  | nil =>
      intro i j fp view he
      by_cases h : o.commitFail = true <;> simp [stageA, h] at he
  | cons ev rest ih =>
      intro i j fp view he
      by_cases hp : o.persistFail i = true
      · simp [stageA, hp] at he
      · simp only [stageA, if_neg hp] at he
        rcases List.mem_cons.mp he with he | he
        · simp at he
        · rcases List.mem_append.mp he with he | he
          · by_cases hq : o.publishFail i = true
            · simp [hq] at he
            · simp only [if_neg hq, List.mem_singleton,
                Effect.publishSingle.injEq] at he
              exact ⟨ev, List.mem_cons_self ev rest, he.2.1, he.2.2⟩
          · obtain ⟨a, ha, h1, h2⟩ := ih (i + 1) he
            exact ⟨a, List.mem_cons_of_mem _ ha, h1, h2⟩

lemma stageBTrace_isStageB (o : Oracles) (x : List AlertDto) :
    ∀ e ∈ stageBTrace o x, isStageB e = true := by
  intro e he
  by_cases h : o.workflowFail = true
  · simp [stageBTrace, h] at he
  · simp [stageBTrace, h] at he
    subst he; rfl

lemma groupedPublishes_isStageC (o : Oracles) :
    ∀ (g : List AlertDto) (j : Nat),
      ∀ e ∈ groupedPublishes o j g, isStageC e = true := by
  intro g
  induction g with
  | nil => intro j e he; simp [groupedPublishes] at he
  | cons a rest ih =>
      intro j e he
      simp only [groupedPublishes] at he
      rcases List.mem_append.mp he with he | he
      · by_cases h : o.groupedPublishFail j = true
        · simp [h] at he
        · simp [h] at he
          subst he; rfl
      · exact ih (j + 1) e he

lemma stageCTrace_isStageC (o : Oracles) (x : List AlertDto) :
    ∀ e ∈ stageCTrace o x, isStageC e = true := by
  intro e he
  by_cases hr : o.rulesFail = true
  · simp [stageCTrace, hr] at he
  · simp only [stageCTrace, if_neg hr] at he
    rcases List.mem_cons.mp he with he | he
    · subst he; rfl
    · by_cases hg : o.grouped.isEmpty = true
      · simp [hg] at he
      · by_cases hgi : o.groupedInsertFail = true
        · simp [hg, hgi] at he
        · simp only [if_neg hg, if_neg hgi] at he
          rcases List.mem_cons.mp he with he | he
          · subst he; rfl
          · exact groupedPublishes_isStageC o o.grouped 0 e he

lemma isStageB_no_persist {e : Effect} (h : isStageB e = true) :
    persistIdx e = none ∧ singleIdx e = none := by
  cases e <;> simp [isStageB, persistIdx, singleIdx] at h ⊢

lemma isStageC_no_persist {e : Effect} (h : isStageC e = true) :
    persistIdx e = none ∧ singleIdx e = none := by
  cases e <;> simp [isStageC, persistIdx, singleIdx] at h ⊢

lemma handle_decomp (o : Oracles) (alerts : List AlertDto) :
    handleFormattedEvents o alerts =
      (stageA o alerts 0).2 ++ stageBTrace o (stageA o alerts 0).1 ++
        stageCTrace o (stageA o alerts 0).1 := rfl

lemma handle_persistIdxs (o : Oracles) (alerts : List AlertDto) :
    persistIdxs (handleFormattedEvents o alerts) =
      persistIdxs (stageA o alerts 0).2 := by
  rw [handle_decomp]
  unfold persistIdxs
  rw [List.filterMap_append, List.filterMap_append]
  have hB : List.filterMap persistIdx
      (stageBTrace o (stageA o alerts 0).1) = [] := by
    rw [List.filterMap_eq_nil_iff]
    intro e he
    exact (isStageB_no_persist (stageBTrace_isStageB o _ e he)).1
  have hC : List.filterMap persistIdx
      (stageCTrace o (stageA o alerts 0).1) = [] := by
    rw [List.filterMap_eq_nil_iff]
    intro e he
    exact (isStageC_no_persist (stageCTrace_isStageC o _ e he)).1
  rw [hB, hC, List.append_nil, List.append_nil]

lemma handle_singleIdxs (o : Oracles) (alerts : List AlertDto) :
    singleIdxs (handleFormattedEvents o alerts) =
      singleIdxs (stageA o alerts 0).2 := by
  rw [handle_decomp]
  unfold singleIdxs
  rw [List.filterMap_append, List.filterMap_append]
  have hB : List.filterMap singleIdx
      (stageBTrace o (stageA o alerts 0).1) = [] := by
    rw [List.filterMap_eq_nil_iff]
    intro e he
    exact (isStageB_no_persist (stageBTrace_isStageB o _ e he)).2
  have hC : List.filterMap singleIdx
      (stageCTrace o (stageA o alerts 0).1) = [] := by
    rw [List.filterMap_eq_nil_iff]
    intro e he
    exact (isStageC_no_persist (stageCTrace_isStageC o _ e he)).2
  rw [hB, hC, List.append_nil, List.append_nil]

lemma publishSingle_mem_stageA (o : Oracles) (alerts : List AlertDto)
    {j fp : Nat} {view : List (Nat × Nat)}
    (h : Effect.publishSingle j fp view ∈ handleFormattedEvents o alerts) :
    Effect.publishSingle j fp view ∈ (stageA o alerts 0).2 := by
  rw [handle_decomp] at h
  rcases List.mem_append.mp h with h | h
  · rcases List.mem_append.mp h with h | h
    · exact h
    · have := stageBTrace_isStageB o _ _ h
      simp [isStageB] at this
  · have := stageCTrace_isStageC o _ _ h
    simp [isStageC] at this

lemma workflowInsert_mem_handle (o : Oracles) (alerts : List AlertDto)
    (hw : o.workflowFail = false) :
    Effect.workflowInsert (stageA o alerts 0).1 ∈
      handleFormattedEvents o alerts := by
  rw [handle_decomp]
  refine List.mem_append.mpr (Or.inl (List.mem_append.mpr (Or.inr ?_)))
  simp [stageBTrace, hw]

lemma rulesRun_mem_handle (o : Oracles) (alerts : List AlertDto)
    (hr : o.rulesFail = false) :
    Effect.rulesRun (stageA o alerts 0).1 ∈
      handleFormattedEvents o alerts := by
  rw [handle_decomp]
  refine List.mem_append.mpr (Or.inr ?_)
  simp [stageCTrace, hr]

lemma firstPersistFail_spec (o : Oracles) :
    ∀ (n b k : Nat), k < n →
      (∀ j, j < k → o.persistFail (b + j) = false) →
      o.persistFail (b + k) = true → firstPersistFail o b n = k := by
  intro n
  induction n with
  | zero => intro b k hk; omega
  | succ m ih =>
      intro b k hk hmin hfail
      match k with
      | 0 =>
          rw [firstPersistFail, if_pos (by simpa using hfail)]
      | k' + 1 =>
          have h0 : o.persistFail b = false := by
            simpa using hmin 0 (by omega)
          rw [firstPersistFail, if_neg (by simp [h0])]
          have harg : b + (k' + 1) = b + 1 + k' := by omega
          refine congrArg (· + 1) (ih (b + 1) k' (by omega) ?_ ?_)
          · intro j hj
            have harg' : b + (j + 1) = b + 1 + j := by omega
            rw [← harg']
            exact hmin (j + 1) (by omega)
          · rw [← harg]; exact hfail

lemma dlookup_dinsert_self {κ ν : Type} [DecidableEq κ] (k : κ) (v : ν)
    (l : List (κ × ν)) : dlookup k (dinsert k v l) = some v := by
  induction l with
  | nil => simp [dinsert, dlookup]
  | cons p rest ih =>
      obtain ⟨k', v'⟩ := p
      by_cases h : k' = k
      · simp [dinsert, h, dlookup]
      · simp [dinsert, h, dlookup, ih]

lemma dlookup_dinsert_ne {κ ν : Type} [DecidableEq κ] {k k' : κ} (v : ν)
    (l : List (κ × ν)) (h : k' ≠ k) :
    dlookup k (dinsert k' v l) = dlookup k l := by
  induction l with
  | nil => simp [dinsert, dlookup, h]
  | cons p rest ih =>
      obtain ⟨k₀, v₀⟩ := p
      by_cases h0 : k₀ = k'
      · subst h0; simp [dinsert, dlookup, h]
      · simp only [dinsert, if_neg h0]
        by_cases h1 : k₀ = k
        · simp [dlookup, h1]
        · simp [dlookup, h1, ih]

lemma applyOverlay_cons (k₀ v₀ : Nat) (rest ev : List (Nat × Nat)) :
    applyOverlay (some ((k₀, v₀) :: rest)) ev =
      applyOverlay (some rest) (dinsert k₀ v₀ ev) := rfl

lemma applyOverlay_lookup_not_mem :
    ∀ (ov ev : List (Nat × Nat)) (k : Nat), k ∉ ov.map Prod.fst →
      dlookup k (applyOverlay (some ov) ev) = dlookup k ev := by
  intro ov
  induction ov with
  | nil => intro ev k _; rfl
  | cons p rest ih =>
      obtain ⟨k₀, v₀⟩ := p
      intro ev k h
      simp only [List.map_cons, List.mem_cons, not_or] at h
      rw [applyOverlay_cons, ih (dinsert k₀ v₀ ev) k h.2,
        dlookup_dinsert_ne v₀ ev (Ne.symm h.1)]

lemma applyOverlay_lookup_mem :
    ∀ (ov ev : List (Nat × Nat)) (k v : Nat), (ov.map Prod.fst).Nodup →
      (k, v) ∈ ov → dlookup k (applyOverlay (some ov) ev) = some v := by
  intro ov
  induction ov with
  | nil => intro ev k v _ hm; simp at hm
  | cons p rest ih =>
      obtain ⟨k₀, v₀⟩ := p
      intro ev k v hnd hm
      simp only [List.map_cons, List.nodup_cons] at hnd
      rw [applyOverlay_cons]
      rcases List.mem_cons.mp hm with hm | hm
      · have hk := congrArg Prod.fst hm
        have hv := congrArg Prod.snd hm
        simp only at hk hv
        rw [hk, hv, applyOverlay_lookup_not_mem rest _ k₀ hnd.1]
        exact dlookup_dinsert_self k₀ v₀ ev
      · exact ih (dinsert k₀ v₀ ev) k v hnd.2 hm

/-- **C2** (amended).  Views published to the live feed have the overlay
merged with overlay precedence: any single-alert publish of the ingestion
pipeline shows `k = v` whenever the fingerprint's overlay binds `k` to `v`
(regardless of what the raw event bound `k` to), and the pull path's
enrichment merge (`enrichAlert`, the `setattr` loop) does the same for the
batch-publish/sync views.  The workflow and rules consumers, however,
receive the in-memory alert list whose `event` fields are exactly the raw
input ones — un-merged (the claim fails for those two consumers, see the
counterexample). -/
theorem enrichment_overlay_precedence (o : Oracles) (alerts : List AlertDto)
    (j fp k v : Nat) (view ov : List (Nat × Nat)) (b : AlertDto)
    (hpub : Effect.publishSingle j fp view ∈ handleFormattedEvents o alerts)
    (hov : o.overlay fp = some ov)
    (hnd : (ov.map Prod.fst).Nodup)
    (hkv : (k, v) ∈ ov)
    (hb : b.fingerprint = fp)
    (hw : o.workflowFail = false) :
    dlookup k view = some v ∧
    dlookup k (enrichAlert o.overlay b).event = some v ∧
    Effect.workflowInsert (stageA o alerts 0).1 ∈
      handleFormattedEvents o alerts ∧
    (stageA o alerts 0).1.map AlertDto.event = alerts.map AlertDto.event := by
  obtain ⟨a, ha, h1, h2⟩ := stageA_publishSingle_view o alerts 0
    (publishSingle_mem_stageA o alerts hpub)
  have hv : dlookup k view = some v := by
    rw [h2, ← h1, hov]
    exact applyOverlay_lookup_mem ov a.event k v hnd hkv
  refine ⟨hv, ?_, workflowInsert_mem_handle o alerts hw,
    stageA_fst_event o alerts 0⟩
  show dlookup k (applyOverlay (o.overlay b.fingerprint) b.event) = some v
  rw [hb, hov]
  exact applyOverlay_lookup_mem ov b.event k v hnd hkv

/-- **C2** counterexample to the claim as stated: the overlay for
fingerprint 0 binds field 0 to 1, yet the alert list handed to the
workflow consumer (and to the rules consumer) carries the raw event with
field 0 bound to 2 — the workflow/rules dispatch views do NOT have the
overlay merged in. -/
theorem enrichment_claim_counterexample :
    oracleCx2.overlay 0 = some [(0, 1)] ∧
    Effect.workflowInsert [(⟨0, [(0, 2)], true, some 0⟩ : AlertDto)] ∈
      handleFormattedEvents oracleCx2
        [(⟨0, [(0, 2)], false, none⟩ : AlertDto)] ∧
    Effect.rulesRun [(⟨0, [(0, 2)], true, some 0⟩ : AlertDto)] ∈
      handleFormattedEvents oracleCx2
        [(⟨0, [(0, 2)], false, none⟩ : AlertDto)] ∧
    dlookup 0 (AlertDto.event ⟨0, [(0, 2)], true, some 0⟩) = some 2 ∧
    dlookup 0 (AlertDto.event ⟨0, [(0, 2)], true, some 0⟩) ≠ some 1 := by
  decide

/-- Witness for C2 at the concrete publish of the merged view `[(0, 1)]`. -/
theorem enrichment_overlay_precedence_witness :
    dlookup 0 [(0, 1)] = some 1 ∧
    dlookup 0 (enrichAlert oracleCx2.overlay
      (⟨0, [(0, 2)], false, none⟩ : AlertDto)).event = some 1 ∧
    Effect.workflowInsert
        (stageA oracleCx2 [(⟨0, [(0, 2)], false, none⟩ : AlertDto)] 0).1 ∈
      handleFormattedEvents oracleCx2
        [(⟨0, [(0, 2)], false, none⟩ : AlertDto)] ∧
    (stageA oracleCx2 [(⟨0, [(0, 2)], false, none⟩ : AlertDto)] 0).1.map
        AlertDto.event =
      [(⟨0, [(0, 2)], false, none⟩ : AlertDto)].map AlertDto.event :=
  enrichment_overlay_precedence oracleCx2
    [⟨0, [(0, 2)], false, none⟩] 0 0 0 1 [(0, 1)] [(0, 1)]
    ⟨0, [(0, 2)], false, none⟩ (by decide) rfl (by decide) (by decide)
    rfl rfl

/-- **C3**.  The pipeline's trace decomposes as Stage A effects, then Stage
B effects, then Stage C effects (Stage A completes — in success or failure
— before Stage B begins, and Stage B before Stage C); within Stage A the
persisted positions are exactly the prefix `0, 1, ...` up to the first
persistence failure, in input order, and the published positions are an
in-order subsequence of them; and when the rules call raises while the
workflow call does not, the workflow call's effect is in the trace
regardless. -/
theorem three_stage_ordering (o : Oracles) (alerts : List AlertDto)
    (hr : o.rulesFail = true) (hw : o.workflowFail = false) :
    (∃ tA tB tC, handleFormattedEvents o alerts = tA ++ tB ++ tC ∧
      (∀ e ∈ tA, isStageA e = true) ∧
      (∀ e ∈ tB, isStageB e = true) ∧
      (∀ e ∈ tC, isStageC e = true)) ∧
    persistIdxs (handleFormattedEvents o alerts) =
      List.range' 0 (firstPersistFail o 0 alerts.length) ∧
    List.Sublist (singleIdxs (handleFormattedEvents o alerts))
      (persistIdxs (handleFormattedEvents o alerts)) ∧
    Effect.workflowInsert (stageA o alerts 0).1 ∈
      handleFormattedEvents o alerts := by
  refine ⟨⟨(stageA o alerts 0).2, stageBTrace o (stageA o alerts 0).1,
    stageCTrace o (stageA o alerts 0).1, rfl,
    stageA_trace_isStageA o alerts 0, stageBTrace_isStageB o _,
    stageCTrace_isStageC o _⟩, ?_, ?_,
    workflowInsert_mem_handle o alerts hw⟩
  · rw [handle_persistIdxs]
    exact stageA_persistIdxs o alerts 0
  · rw [handle_persistIdxs, handle_singleIdxs]
    exact stageA_singleIdxs_sublist o alerts 0

/-- Witness for C3: rules raise, workflow does not, one alert. -/
theorem three_stage_ordering_witness :
    (∃ tA tB tC,
      handleFormattedEvents oracleRulesFail
          [(⟨0, [], false, none⟩ : AlertDto)] = tA ++ tB ++ tC ∧
      (∀ e ∈ tA, isStageA e = true) ∧
      (∀ e ∈ tB, isStageB e = true) ∧
      (∀ e ∈ tC, isStageC e = true)) ∧
    persistIdxs (handleFormattedEvents oracleRulesFail
        [(⟨0, [], false, none⟩ : AlertDto)]) =
      List.range' 0 (firstPersistFail oracleRulesFail 0
        [(⟨0, [], false, none⟩ : AlertDto)].length) ∧
    List.Sublist
      (singleIdxs (handleFormattedEvents oracleRulesFail
        [(⟨0, [], false, none⟩ : AlertDto)]))
      (persistIdxs (handleFormattedEvents oracleRulesFail
        [(⟨0, [], false, none⟩ : AlertDto)])) ∧
    Effect.workflowInsert
        (stageA oracleRulesFail [(⟨0, [], false, none⟩ : AlertDto)] 0).1 ∈
      handleFormattedEvents oracleRulesFail
        [(⟨0, [], false, none⟩ : AlertDto)] :=
  three_stage_ordering oracleRulesFail [⟨0, [], false, none⟩] rfl rfl

/-- **C4** (amended).  A persistence failure at input position `i` is
caught at the stage level: it aborts persistence (and publishing) of every
later alert in the same call — the persisted positions are exactly
`0, ..., i - 1` — but it does not block Stage B or Stage C: the workflow
and rules consumers still receive the full in-memory alert list, one entry
per input alert, with every raw `event` mapping intact. -/
theorem persistence_failure_stage_abort (o : Oracles)
    (alerts : List AlertDto) (i : Nat)
    (hfail : o.persistFail i = true)
    (hmin : ∀ j, j < i → o.persistFail j = false)
    (hi : i < alerts.length)
    (hw : o.workflowFail = false) (hr : o.rulesFail = false) :
    persistIdxs (handleFormattedEvents o alerts) = List.range' 0 i ∧
    Effect.workflowInsert (stageA o alerts 0).1 ∈
      handleFormattedEvents o alerts ∧
    Effect.rulesRun (stageA o alerts 0).1 ∈
      handleFormattedEvents o alerts ∧
    (stageA o alerts 0).1.length = alerts.length ∧
    (stageA o alerts 0).1.map AlertDto.event = alerts.map AlertDto.event := by
  have hf : firstPersistFail o 0 alerts.length = i :=
    firstPersistFail_spec o alerts.length 0 i hi
      (by intro j hj; simpa using hmin j hj) (by simpa using hfail)
  refine ⟨?_, workflowInsert_mem_handle o alerts hw,
    rulesRun_mem_handle o alerts hr, stageA_fst_length o alerts 0,
    stageA_fst_event o alerts 0⟩
  rw [handle_persistIdxs, stageA_persistIdxs o alerts 0, hf]

/-- **C4** counterexample to the claim as stated: persistence raises for
the first alert, and the second alert is then NOT persisted (no persist
effect at all appears in the trace), refuting "does not block persistence
of the remaining alerts in the same call" — although Stage B still
receives both alerts. -/
theorem persistence_failure_claim_counterexample :
    oracleCx4.persistFail 0 = true ∧
    persistIdxs (handleFormattedEvents oracleCx4
      [(⟨0, [], false, none⟩ : AlertDto),
        (⟨1, [], false, none⟩ : AlertDto)]) = [] ∧
    Effect.workflowInsert
        [(⟨0, [], true, none⟩ : AlertDto),
          (⟨1, [], false, none⟩ : AlertDto)] ∈
      handleFormattedEvents oracleCx4
        [(⟨0, [], false, none⟩ : AlertDto),
          (⟨1, [], false, none⟩ : AlertDto)] := by
  decide

/-- Witness for C4: failure at position 0 of a two-alert call. -/
theorem persistence_failure_stage_abort_witness :
    persistIdxs (handleFormattedEvents oracleCx4
        [(⟨0, [], false, none⟩ : AlertDto),
          (⟨1, [], false, none⟩ : AlertDto)]) = List.range' 0 0 ∧
    Effect.workflowInsert
        (stageA oracleCx4
          [(⟨0, [], false, none⟩ : AlertDto),
            (⟨1, [], false, none⟩ : AlertDto)] 0).1 ∈
      handleFormattedEvents oracleCx4
        [(⟨0, [], false, none⟩ : AlertDto),
          (⟨1, [], false, none⟩ : AlertDto)] ∧
    Effect.rulesRun
        (stageA oracleCx4
          [(⟨0, [], false, none⟩ : AlertDto),
            (⟨1, [], false, none⟩ : AlertDto)] 0).1 ∈
      handleFormattedEvents oracleCx4
        [(⟨0, [], false, none⟩ : AlertDto),
          (⟨1, [], false, none⟩ : AlertDto)] ∧
    (stageA oracleCx4
        [(⟨0, [], false, none⟩ : AlertDto),
          (⟨1, [], false, none⟩ : AlertDto)] 0).1.length =
      [(⟨0, [], false, none⟩ : AlertDto),
        (⟨1, [], false, none⟩ : AlertDto)].length ∧
    (stageA oracleCx4
        [(⟨0, [], false, none⟩ : AlertDto),
          (⟨1, [], false, none⟩ : AlertDto)] 0).1.map AlertDto.event =
      [(⟨0, [], false, none⟩ : AlertDto),
        (⟨1, [], false, none⟩ : AlertDto)].map AlertDto.event :=
  persistence_failure_stage_abort oracleCx4
    [⟨0, [], false, none⟩, ⟨1, [], false, none⟩] 0 (by decide)
    (fun j hj => absurd hj (Nat.not_lt_zero j)) (by decide) rfl rfl

/-! ## Poll orchestrator lemmas and theorems -/

lemma runProviders_ok (size : List AlertDto → Nat)
    (overlay : Nat → Option (List (Nat × Nat))) (sync : Bool) :
    ∀ (ps : List ProviderRun) (acc : List AlertDto)
      (eff : List PullEffect),
      (∀ p ∈ ps, p.instantiateFail = false) →
      ∃ r, runProviders size overlay sync ps acc eff = Except.ok r := by
  intro ps
  induction ps with
  | nil => intro acc eff _; exact ⟨(acc, eff), rfl⟩
  | cons p rest ih =>
      intro acc eff h
      have hp : p.instantiateFail = false := h p (List.mem_cons_self p rest)
      simp only [runProviders]
      rw [if_neg (by simp [hp])]
      by_cases hs : sync = true
      · rw [if_pos hs]
        exact ih _ _ (fun x hx => h x (List.mem_cons_of_mem p hx))
      · rw [if_neg hs]
        exact ih _ _ (fun x hx => h x (List.mem_cons_of_mem p hx))

lemma runProviders_sync (size : List AlertDto → Nat)
    (overlay : Nat → Option (List (Nat × Nat))) :
    ∀ (ps : List ProviderRun) (acc : List AlertDto)
      (eff : List PullEffect),
      (∀ p ∈ ps, p.instantiateFail = false) →
      runProviders size overlay true ps acc eff =
        Except.ok (acc ++ runProvidersSync overlay ps, eff) := by
  intro ps
  induction ps with
  | nil => intro acc eff _; simp [runProviders, runProvidersSync]
  | cons p rest ih =>
      intro acc eff h
      have hp : p.instantiateFail = false := h p (List.mem_cons_self p rest)
      simp only [runProviders]
      rw [if_neg (by simp [hp]), if_pos trivial,
        ih _ _ (fun x hx => h x (List.mem_cons_of_mem p hx))]
      simp [runProvidersSync]

lemma runProviders_async (size : List AlertDto → Nat)
    (overlay : Nat → Option (List (Nat × Nat))) :
    ∀ (ps : List ProviderRun) (acc : List AlertDto)
      (eff : List PullEffect),
      (∀ p ∈ ps, p.instantiateFail = false) →
      runProviders size overlay false ps acc eff =
        Except.ok (acc,
          eff ++ (ps.map (processProviderAsync size overlay)).flatten) := by
  intro ps
  induction ps with
  | nil => intro acc eff _; simp [runProviders]
  | cons p rest ih =>
      intro acc eff h
      have hp : p.instantiateFail = false := h p (List.mem_cons_self p rest)
      simp only [runProviders]
      rw [if_neg (by simp [hp]), if_neg (by simp),
        ih _ _ (fun x hx => h x (List.mem_cons_of_mem p hx))]
      simp

/-- **C5**.  Failure isolation in the poll orchestrator, for all three
fallible steps of a provider's turn.  Sync mode: a provider whose pull
raises contributes nothing; when A's pull raises and B's succeeds with
`l`, the accumulated result — and the orchestrator's returned value — is
exactly B's `|l|` enriched alerts, with no partial state from A; dropping
any provider whose turn contributes nothing leaves the rest unchanged.
Async mode (where publishing happens): a provider whose pull raises
publishes nothing; a pusher exception at flush `k` of provider `q` costs
only `q`'s own flushes from `k` on; and the sweep over the remaining
providers still runs in full — their flushes and the terminal
`async-done` signal are emitted regardless of `q`'s publishing failure. -/
theorem provider_failure_isolation (size : List AlertDto → Nat)
    (overlay : Nat → Option (List (Nat × Nat)))
    (pA pB : ProviderRun) (l : List AlertDto)
    (ps1 ps2 : List ProviderRun) (p q : ProviderRun)
    (m : List AlertDto) (k : Nat)
    (hA : pA.pull = none) (hB : pB.pull = some l)
    (hBe : pB.enrichFail = false)
    (hAi : pA.instantiateFail = false)
    (hBi : pB.instantiateFail = false)
    (hp : processProviderSync overlay p = [])
    (hq : q.pull = some m) (hqe : q.enrichFail = false)
    (hqp : q.publishFailAt = some k) (hm : m.isEmpty = false)
    (hinst : ∀ x ∈ ps1 ++ q :: ps2, x.instantiateFail = false) :
    runProvidersSync overlay [pA, pB] = l.map (enrichAlert overlay) ∧
    (runProvidersSync overlay [pA, pB]).length = l.length ∧
    runProvidersSync overlay (ps1 ++ p :: ps2) =
      runProvidersSync overlay (ps1 ++ ps2) ∧
    pullAlertsFromProviders size overlay true true false [pA, pB] false =
      Except.ok (some (l.map (enrichAlert overlay)), []) ∧
    processProviderAsync size overlay pA = [] ∧
    processProviderAsync size overlay q =
      ((runPub size (m.map (enrichAlert overlay))).flushed.take k).map
        (fun pr : Option (List AlertDto) × Nat =>
          PullEffect.flush pr.1 pr.2) ∧
    pullAlertsFromProviders size overlay true false false
        (ps1 ++ q :: ps2) false =
      Except.ok (none,
        (ps1.map (processProviderAsync size overlay)).flatten ++
          (processProviderAsync size overlay q ++
            ((ps2.map (processProviderAsync size overlay)).flatten ++
              [PullEffect.asyncDone]))) := by
  have h1 : processProviderSync overlay pA = [] := by
    simp [processProviderSync, hA]
  have h2 : processProviderSync overlay pB = l.map (enrichAlert overlay) := by
    simp only [processProviderSync, hB]
    by_cases hl : l.isEmpty = true
    · rw [List.isEmpty_iff.mp hl]; simp
    · simp [hl, hBe]
  have hsync2 : runProvidersSync overlay [pA, pB] =
      l.map (enrichAlert overlay) := by
    simp [runProvidersSync, h1, h2]
  have hrunAB := runProviders_sync size overlay [pA, pB] [] [] (by
    intro x hx
    rcases List.mem_cons.mp hx with h | h
    · subst h; exact hAi
    · rcases List.mem_cons.mp h with h | h
      · subst h; exact hBi
      · simp at h)
  have hrunQ := runProviders_async size overlay (ps1 ++ q :: ps2) [] [] hinst
  refine ⟨hsync2, by simp [hsync2], ?_, ?_, ?_, ?_, ?_⟩
  · simp [runProvidersSync, List.map_append, hp]
  · unfold pullAlertsFromProviders
    simp [hrunAB, hsync2]
  · simp [processProviderAsync, hA]
  · simp [processProviderAsync, hq, hm, hqe, hqp]
  · unfold pullAlertsFromProviders
    simp [hrunQ, List.map_append]

/-- Witness for C5: provider A's pull raises, provider B yields one alert
(sync scenario); provider q's pusher raises at its first flush (async
scenario) with provider B following it in the sweep. -/
theorem provider_failure_isolation_witness :
    runProvidersSync (fun _ => none)
        [(⟨false, none, false, none⟩ : ProviderRun),
          (⟨false, some [(⟨1, [], false, none⟩ : AlertDto)], false,
            none⟩ : ProviderRun)] =
      [(⟨1, [], false, none⟩ : AlertDto)].map (enrichAlert fun _ => none) ∧
    (runProvidersSync (fun _ => none)
        [(⟨false, none, false, none⟩ : ProviderRun),
          (⟨false, some [(⟨1, [], false, none⟩ : AlertDto)], false,
            none⟩ : ProviderRun)]).length =
      [(⟨1, [], false, none⟩ : AlertDto)].length ∧
    runProvidersSync (fun _ => none)
        ([] ++ (⟨false, none, false, none⟩ : ProviderRun) ::
          [(⟨false, some [(⟨1, [], false, none⟩ : AlertDto)], false,
            none⟩ : ProviderRun)]) =
      runProvidersSync (fun _ => none)
        ([] ++
          [(⟨false, some [(⟨1, [], false, none⟩ : AlertDto)], false,
            none⟩ : ProviderRun)]) ∧
    pullAlertsFromProviders (fun _ => 0) (fun _ => none) true true false
        [(⟨false, none, false, none⟩ : ProviderRun),
          (⟨false, some [(⟨1, [], false, none⟩ : AlertDto)], false,
            none⟩ : ProviderRun)] false =
      Except.ok
        (some ([(⟨1, [], false, none⟩ : AlertDto)].map
          (enrichAlert fun _ => none)), []) ∧
    processProviderAsync (fun _ => 0) (fun _ => none)
        (⟨false, none, false, none⟩ : ProviderRun) = [] ∧
    processProviderAsync (fun _ => 0) (fun _ => none)
        (⟨false, some [(⟨1, [], false, none⟩ : AlertDto)], false,
          some 0⟩ : ProviderRun) =
      ((runPub (fun _ => 0)
          ([(⟨1, [], false, none⟩ : AlertDto)].map
            (enrichAlert fun _ => none))).flushed.take 0).map
        (fun pr : Option (List AlertDto) × Nat =>
          PullEffect.flush pr.1 pr.2) ∧
    pullAlertsFromProviders (fun _ => 0) (fun _ => none) true false false
        ([] ++
          (⟨false, some [(⟨1, [], false, none⟩ : AlertDto)], false,
            some 0⟩ : ProviderRun) ::
          [(⟨false, some [(⟨1, [], false, none⟩ : AlertDto)], false,
            none⟩ : ProviderRun)]) false =
      Except.ok (none,
        (([] : List ProviderRun).map
            (processProviderAsync (fun _ => 0) (fun _ => none))).flatten ++
          (processProviderAsync (fun _ => 0) (fun _ => none)
              (⟨false, some [(⟨1, [], false, none⟩ : AlertDto)], false,
                some 0⟩ : ProviderRun) ++
            (([(⟨false, some [(⟨1, [], false, none⟩ : AlertDto)], false,
                  none⟩ : ProviderRun)].map
                (processProviderAsync (fun _ => 0) (fun _ => none))).flatten ++
              [PullEffect.asyncDone]))) :=
  provider_failure_isolation (fun _ => 0) (fun _ => none)
    ⟨false, none, false, none⟩
    ⟨false, some [⟨1, [], false, none⟩], false, none⟩
    [⟨1, [], false, none⟩] []
    [⟨false, some [⟨1, [], false, none⟩], false, none⟩]
    ⟨false, none, false, none⟩
    ⟨false, some [⟨1, [], false, none⟩], false, some 0⟩
    [⟨1, [], false, none⟩] 0
    rfl rfl rfl rfl rfl (by decide) rfl rfl rfl (by decide) (by decide)

/-- **C6** (amended).  The orchestrator fails fast with the explicit
configuration error exactly when the pusher client is absent and
synchronous mode is not requested.  The configuration failure is NOT the
only error class that propagates, however: an exception from provider
enumeration (lines 70-77) or per-provider instantiation (lines 83-88) —
both outside the per-provider `try` — and an exception from the uncaught
terminal `async-done` trigger (line 212) also propagate (see the
counterexample).  When enumeration succeeds, no provider's instantiation
raises and the terminal publish succeeds, every other failure is absorbed
per provider and the call returns normally. -/
theorem pusher_required_guard (size : List AlertDto → Nat)
    (overlay : Nat → Option (List (Nat × Nat)))
    (pusherPresent sync : Bool) (providers : List ProviderRun)
    (hinst : ∀ p ∈ providers, p.instantiateFail = false) :
    (pullAlertsFromProviders size overlay pusherPresent sync false
        providers false =
        Except.error PullError.pusherDisabled ↔
      pusherPresent = false ∧ sync = false) ∧
    ((pusherPresent = true ∨ sync = true) →
      ∃ r, pullAlertsFromProviders size overlay pusherPresent sync false
        providers false = Except.ok r) := by
  by_cases hc : pusherPresent = false ∧ sync = false
  · obtain ⟨hc1, hc2⟩ := hc
    subst hc1; subst hc2
    have hval : pullAlertsFromProviders size overlay false false false
        providers false = Except.error PullError.pusherDisabled := by
      unfold pullAlertsFromProviders
      rw [if_pos ⟨rfl, rfl⟩]
    refine ⟨by simp [hval], ?_⟩
    intro hor
    rcases hor with h | h <;> exact absurd h (by simp)
  · by_cases hs : sync = true
    · subst hs
      obtain ⟨⟨acc, eff⟩, hr⟩ :=
        runProviders_ok size overlay true providers [] [] hinst
      have hval : pullAlertsFromProviders size overlay pusherPresent true
          false providers false = Except.ok (some acc, eff) := by
        unfold pullAlertsFromProviders
        simp [hr]
      exact ⟨by simp [hval], fun _ => ⟨(some acc, eff), hval⟩⟩
    · have hsf : sync = false := by
        revert hs; cases sync <;> simp
      subst hsf
      have hpt : pusherPresent = true := by
        revert hc; cases pusherPresent <;> simp
      subst hpt
      obtain ⟨⟨acc, eff⟩, hr⟩ :=
        runProviders_ok size overlay false providers [] [] hinst
      have hval : pullAlertsFromProviders size overlay true false false
          providers false =
          Except.ok (none, eff ++ [PullEffect.asyncDone]) := by
        unfold pullAlertsFromProviders
        simp [hr]
      exact ⟨by simp [hval],
        fun _ => ⟨(none, eff ++ [PullEffect.asyncDone]), hval⟩⟩

/-- **C6** counterexample to the claim as stated: with the pusher present
(so the guard configuration is fine), an instantiation exception for one
provider propagates out of the orchestrator, and so does an exception
from the terminal `async-done` trigger — both are error classes other
than the configuration failure, refuting "this configuration failure is
the only error class that propagates out of the core". -/
theorem pusher_guard_claim_counterexample :
    pullAlertsFromProviders (fun _ => 0) (fun _ => none) true true false
        [(⟨true, none, false, none⟩ : ProviderRun)] false =
      Except.error (PullError.providerInstantiation []) ∧
    pullAlertsFromProviders (fun _ => 0) (fun _ => none) true false false
        [] true =
      Except.error (PullError.asyncDonePublish []) ∧
    PullError.providerInstantiation [] ≠ PullError.pusherDisabled ∧
    PullError.asyncDonePublish [] ≠ PullError.pusherDisabled :=
  ⟨rfl, rfl, by decide, by decide⟩

/-- Witness for C6: pusher present, async mode, one healthy provider. -/
theorem pusher_required_guard_witness :
    (pullAlertsFromProviders (fun _ => 0) (fun _ => none) true false false
        [(⟨false, none, false, none⟩ : ProviderRun)] false =
        Except.error PullError.pusherDisabled ↔
      (true = false ∧ false = false)) ∧
    ((true = true ∨ false = true) →
      ∃ r, pullAlertsFromProviders (fun _ => 0) (fun _ => none) true false
        false [(⟨false, none, false, none⟩ : ProviderRun)] false =
          Except.ok r) :=
  pusher_required_guard (fun _ => 0) (fun _ => none) true false
    [⟨false, none, false, none⟩] (by decide)

end Keep
